import Mathlib

/-!
Verification development for the OJT-hours tracker.

The data model follows the shared Drizzle schema (users, entries,
supervisors), the persistence operations follow `DatabaseStorage` in
`server/storage.ts`, and the request handlers follow `server/routes.ts`.
The database is modelled as in-memory lists of rows; `uuidv4()` is
modelled as drawing a fresh natural number from a counter (the
collision-freeness of v4 UUIDs is the one abstraction taken), timestamps
are naturals, and SQL `real` is modelled as `Rat`.
-/

namespace Tracker

/-- The fixed enumeration of NDT methods (`NDTMethods` in the shared schema). -/
inductive NDTMethod where
  | ET | RFT | MT | PT | RT | UT_THK | UTSW | PMI | LSI
  deriving DecidableEq, Repr

/-- The string stored in the `method` text column for each enumerated method. -/
def NDTMethod.str : NDTMethod → String
  | .ET => "ET"
  | .RFT => "RFT"
  | .MT => "MT"
  | .PT => "PT"
  | .RT => "RT"
  | .UT_THK => "UT_THK"
  | .UTSW => "UTSW"
  | .PMI => "PMI"
  | .LSI => "LSI"

/-- The nine method strings, in schema order. -/
def methodStrings : List String :=
  ["ET", "RFT", "MT", "PT", "RT", "UT_THK", "UTSW", "PMI", "LSI"]

/-- A row of the `users` table. -/
structure User where
  id : Nat
  email : String
  password : Option String
  name : Option String
  employeeNumber : Option String
  createdAt : Nat
  deriving DecidableEq, Repr

/-- A row of the `entries` table.  `method` is a free text column (the
enumeration is only a comment in the schema), `hours` is a `real` column,
and `verified` defaults to `false`. -/
structure Entry where
  id : Nat
  userId : Nat
  date : Nat
  location : String
  method : String
  hours : Rat
  verified : Bool
  verifiedBy : Option String
  verificationToken : Option Nat
  verifiedAt : Option Nat
  createdAt : Nat
  deriving DecidableEq, Repr

/-- The fields picked by `insertEntrySchema` (userId, date, location,
method, hours). -/
structure InsertEntry where
  userId : Nat
  date : Nat
  location : String
  method : String
  hours : Rat
  deriving DecidableEq, Repr

/-- An untyped request object for entry creation: each picked field may be
present or absent. -/
structure RawEntry where
  userId : Option Nat
  date : Option Nat
  location : Option String
  method : Option String
  hours : Option Rat
  deriving DecidableEq, Repr

/-- `insertEntrySchema.parse`: `createInsertSchema(entries).pick(...)`
requires exactly the five picked not-null columns to be present; it adds
no refinement on `hours` or `method`. -/
def insertEntrySchemaParse (r : RawEntry) : Option InsertEntry :=
  match r.userId, r.date, r.location, r.method, r.hours with
  | some u, some d, some l, some m, some h => some ⟨u, d, l, m, h⟩
  | _, _, _, _, _ => none

/-- A row of the `supervisors` table. -/
structure Supervisor where
  id : Nat
  userId : Nat
  name : String
  email : String
  phone : String
  certificationLevel : String
  company : String
  createdAt : Nat
  deriving DecidableEq, Repr

/-- An untyped request object for supervisor creation. -/
structure RawSupervisor where
  userId : Option Nat
  name : Option String
  email : Option String
  phone : Option String
  certificationLevel : Option String
  company : Option String
  deriving DecidableEq, Repr

/-- The fields picked by `insertSupervisorSchema`. -/
structure InsertSupervisor where
  userId : Nat
  name : String
  email : String
  phone : String
  certificationLevel : String
  company : String
  deriving DecidableEq, Repr

/-- `insertSupervisorSchema.parse`: all six picked not-null columns must be
present. -/
def insertSupervisorSchemaParse (r : RawSupervisor) : Option InsertSupervisor :=
  match r.userId, r.name, r.email, r.phone, r.certificationLevel, r.company with
  | some u, some n, some e, some p, some c, some co => some ⟨u, n, e, p, c, co⟩
  | _, _, _, _, _, _ => none

/-- The database state: the three tables plus the serial-id counters and
the fresh-UUID supply. -/
structure Store where
  users : List User
  entries : List Entry
  supervisors : List Supervisor
  nextEntryId : Nat
  nextToken : Nat
  nextSupervisorId : Nat
  deriving DecidableEq, Repr

/-- An empty database. -/
def emptyStore : Store :=
  { users := [], entries := [], supervisors := [],
    nextEntryId := 0, nextToken := 0, nextSupervisorId := 0 }

/-! Persistence operations, following `DatabaseStorage` in
`server/storage.ts`.  A `select ... where eq(col, v)` destructured as
`const [row] = ...` yields the first matching row or `undefined`, modelled
with `List.find?` and `Option`. -/

/-- `DatabaseStorage.getUser`. -/
def getUser (s : Store) (id : Nat) : Option User :=
  s.users.find? (fun u => u.id == id)

/-- `DatabaseStorage.getEntries`: rows with the given `userId`, ordered by
`desc(entries.date)`. -/
def getEntries (s : Store) (userId : Nat) : List Entry :=
  (s.entries.filter (fun e => e.userId == userId)).mergeSort
    (fun a b => decide (b.date ≤ a.date))

/-- `DatabaseStorage.getEntry`. -/
def getEntry (s : Store) (id : Nat) : Option Entry :=
  s.entries.find? (fun e => e.id == id)

/-- `DatabaseStorage.getEntryByVerificationToken`. -/
def getEntryByVerificationToken (s : Store) (token : Nat) : Option Entry :=
  s.entries.find? (fun e => e.verificationToken == some token)

/-- `DatabaseStorage.createEntry`: draws `verificationToken = uuidv4()` and
inserts the row; `id` is the next serial value, `verified` takes its
schema default `false`, `verifiedBy`/`verifiedAt` are null, `createdAt`
takes `defaultNow()`. -/
def createEntry (s : Store) (d : InsertEntry) (now : Nat) : Entry × Store :=
  let verificationToken := s.nextToken
  let e : Entry :=
    { id := s.nextEntryId, userId := d.userId, date := d.date,
      location := d.location, method := d.method, hours := d.hours,
      verified := false, verifiedBy := none,
      verificationToken := some verificationToken,
      verifiedAt := none, createdAt := now }
  (e, { s with entries := s.entries ++ [e],
               nextEntryId := s.nextEntryId + 1,
               nextToken := s.nextToken + 1 })

/-- `DatabaseStorage.verifyEntry`: `update entries set verified = true,
verifiedBy, verifiedAt = now() where eq(entries.id, id) returning`.  The
`where` clause tests the id only — it carries no `verified = false`
condition — so it matches the row whatever its current verified state.
The returned value is the first returned row, or `none` when no row
matched. -/
def verifyEntry (s : Store) (id : Nat) (verifiedBy : String) (now : Nat) :
    Option Entry × Store :=
  let newEntries := s.entries.map (fun e =>
    if e.id == id then
      { e with verified := true, verifiedBy := some verifiedBy,
               verifiedAt := some now }
    else e)
  (newEntries.find? (fun e => e.id == id), { s with entries := newEntries })

/-- `DatabaseStorage.getSupervisor`. -/
def getSupervisor (s : Store) (id : Nat) : Option Supervisor :=
  s.supervisors.find? (fun x => x.id == id)

/-- `DatabaseStorage.createSupervisor`. -/
def createSupervisor (s : Store) (d : InsertSupervisor) (now : Nat) :
    Supervisor × Store :=
  let sup : Supervisor :=
    { id := s.nextSupervisorId, userId := d.userId, name := d.name,
      email := d.email, phone := d.phone,
      certificationLevel := d.certificationLevel, company := d.company,
      createdAt := now }
  (sup, { s with supervisors := s.supervisors ++ [sup],
                 nextSupervisorId := s.nextSupervisorId + 1 })

/-! Request handlers, following `server/routes.ts`.  Each handler takes
the store, the request data and (where the handler reads the clock) the
current time, and returns its observable result together with the new
store.  Outbound email is fire-and-forget and does not touch the store,
so it is not modelled as a state effect. -/

/-- The body of `PATCH /api/user`: both fields optional. -/
structure PatchUserBody where
  name : Option String
  employeeNumber : Option String
  deriving DecidableEq, Repr

/-- JavaScript `a || b` on an optional string: an absent value and the
empty string are both falsy and fall through to `b`. -/
def jsOrElse (a : Option String) (b : Option String) : Option String :=
  match a with
  | none => b
  | some v => if v = "" then b else some v

/-- `PATCH /api/user`: loads the caller's row, then issues
`update users set name = name || user.name, employee_number =
employeeNumber || user.employeeNumber where eq(users.id, user.id)
returning` and responds with the returned row. -/
def patchUser (s : Store) (sessionUserId : Nat) (b : PatchUserBody) :
    Option User × Store :=
  match getUser s sessionUserId with
  | none => (none, s)
  | some u =>
    let newUsers := s.users.map (fun w =>
      if w.id == u.id then
        { w with name := jsOrElse b.name u.name,
                 employeeNumber := jsOrElse b.employeeNumber u.employeeNumber }
      else w)
    (newUsers.find? (fun w => w.id == u.id), { s with users := newUsers })

/-- The body of `POST /api/entries`: a single object or an array. -/
inductive EntriesBody where
  | single (r : RawEntry)
  | batch (rs : List RawEntry)
  deriving DecidableEq, Repr

/-- The observable result of `POST /api/entries`. -/
inductive PostEntriesResult where
  | created (es : List Entry)
  | validationError
  deriving DecidableEq, Repr

/-- The array branch of `POST /api/entries`: parse and insert one object
at a time; a ZodError aborts the loop, leaving the rows already inserted
in place (there is no transaction around the loop). -/
def postEntriesLoop (s : Store) (sessionUserId : Nat) (rs : List RawEntry)
    (now : Nat) (acc : List Entry) : PostEntriesResult × Store :=
  match rs with
  | [] => (.created acc.reverse, s)
  | r :: rest =>
    match insertEntrySchemaParse { r with userId := some sessionUserId } with
    | none => (.validationError, s)
    | some d =>
      let es' := createEntry s d now
      postEntriesLoop es'.2 sessionUserId rest now (es'.1 :: acc)

/-- `POST /api/entries`: the session's userId is spread over each object
before validation. -/
def postEntries (s : Store) (sessionUserId : Nat) (body : EntriesBody)
    (now : Nat) : PostEntriesResult × Store :=
  match body with
  | .single r =>
    match insertEntrySchemaParse { r with userId := some sessionUserId } with
    | none => (.validationError, s)
    | some d =>
      let es' := createEntry s d now
      (.created [es'.1], es'.2)
  | .batch rs => postEntriesLoop s sessionUserId rs now []

/-- The body of `POST /api/verify-request/:entryId`: either an existing
`supervisorId` or fresh supervisor fields. -/
structure VerifyRequestBody where
  supervisorId : Option Nat
  raw : RawSupervisor
  deriving DecidableEq, Repr

/-- The observable result of `POST /api/verify-request/:entryId`. -/
inductive VerifyRequestResult where
  | invalidEntryId
  | entryNotFound
  | forbidden
  | entryAlreadyVerified
  | supervisorNotFound
  | serverError
  | userNotFound
  | ok (sup : Supervisor) (e : Entry) (urlToken : Option Nat)
  deriving DecidableEq, Repr

/-- `POST /api/verify-request/:entryId`: ownership and verified checks,
supervisor resolution (a ZodError on fresh supervisor fields is caught by
the generic handler, a 500), then the verification URL is built from the
entry's existing `verificationToken` — no token is generated or stored
here. -/
def verifyRequest (s : Store) (sessionUserId : Nat) (entryId : Option Nat)
    (body : VerifyRequestBody) (now : Nat) : VerifyRequestResult × Store :=
  match entryId with
  | none => (.invalidEntryId, s)
  | some eid =>
    match getEntry s eid with
    | none => (.entryNotFound, s)
    | some e =>
      if e.userId ≠ sessionUserId then (.forbidden, s)
      else if e.verified then (.entryAlreadyVerified, s)
      else
        let withSup := fun (sup : Supervisor) (s' : Store) =>
          match getUser s' sessionUserId with
          | none => (VerifyRequestResult.userNotFound, s')
          | some _ => (VerifyRequestResult.ok sup e e.verificationToken, s')
        match body.supervisorId with
        | some sid =>
          match getSupervisor s sid with
          | none => (.supervisorNotFound, s)
          | some sup => withSup sup s
        | none =>
          match insertSupervisorSchemaParse
              { body.raw with userId := some sessionUserId } with
          | none => (.serverError, s)
          | some d =>
            let sup' := createSupervisor s d now
            withSup sup'.1 sup'.2

/-- The observable result of `GET /api/verify/:token`. -/
inductive GetVerifyResult where
  | notFound
  | alreadyVerified
  | userNotFound
  | ok (e : Entry) (name employeeNumber : Option String)
  deriving DecidableEq, Repr

/-- The HTTP status and message each `GET /api/verify/:token` result is
rendered with. -/
def getVerifyHttp : GetVerifyResult → Nat × String
  | .notFound => (404, "Entry not found or already verified")
  | .alreadyVerified => (400, "Entry already verified")
  | .userNotFound => (404, "User not found")
  | .ok _ _ _ => (200, "")

/-- `GET /api/verify/:token` (unauthenticated): look up by token; a miss
is a 404, a hit on an already-verified entry is a distinct 400. -/
def getVerify (s : Store) (token : Nat) : GetVerifyResult :=
  match getEntryByVerificationToken s token with
  | none => .notFound
  | some e =>
    if e.verified then .alreadyVerified
    else
      match getUser s e.userId with
      | none => .userNotFound
      | some u => .ok e u.name u.employeeNumber

/-- The observable result of `POST /api/verify/:token`.  `success` carries
the row returned by the update. -/
inductive PostVerifyResult where
  | missingName
  | notFound
  | alreadyVerified
  | success (e : Option Entry)
  deriving DecidableEq, Repr

/-- Whether a redemption response is the 200 success response. -/
def PostVerifyResult.isSuccess : PostVerifyResult → Bool
  | .success _ => true
  | _ => false

/-- The HTTP status and message each `POST /api/verify/:token` result is
rendered with. -/
def postVerifyHttp : PostVerifyResult → Nat × String
  | .missingName => (400, "Verifier name is required")
  | .notFound => (404, "Entry not found or already verified")
  | .alreadyVerified => (400, "Entry already verified")
  | .success _ => (200, "Entry verified successfully")

/-- `POST /api/verify/:token` (unauthenticated): `if (!verifierName)`
rejects an absent or empty name; then look up by token (404 on a miss),
reject an already-verified entry (400), otherwise call
`storage.verifyEntry` and respond with the updated row. -/
def postVerify (s : Store) (token : Nat) (verifierName : Option String)
    (now : Nat) : PostVerifyResult × Store :=
  match verifierName with
  | none => (.missingName, s)
  | some vn =>
    if vn = "" then (.missingName, s)
    else
      match getEntryByVerificationToken s token with
      | none => (.notFound, s)
      | some e =>
        if e.verified then (.alreadyVerified, s)
        else
          let rs' := verifyEntry s e.id vn now
          (.success rs'.1, rs'.2)

/-- Two executions of the `POST /api/verify/:token` handler on the same
token, interleaved so that both `getEntryByVerificationToken` reads
complete before either write: request A then runs its verified-check and
`verifyEntry` against the store, and request B runs its verified-check on
its (now stale) read and its `verifyEntry` against A's resulting store.
Each phase is the corresponding phase of `postVerify`. -/
def postVerifyRace (s : Store) (token : Nat) (nameA nameB : String)
    (nowA nowB : Nat) : PostVerifyResult × PostVerifyResult × Store :=
  let readA := getEntryByVerificationToken s token
  let readB := getEntryByVerificationToken s token
  let stepA :=
    match readA with
    | none => (PostVerifyResult.notFound, s)
    | some e =>
      if e.verified then (PostVerifyResult.alreadyVerified, s)
      else
        let rs' := verifyEntry s e.id nameA nowA
        (PostVerifyResult.success rs'.1, rs'.2)
  let stepB :=
    match readB with
    | none => (PostVerifyResult.notFound, stepA.2)
    | some e =>
      if e.verified then (PostVerifyResult.alreadyVerified, stepA.2)
      else
        let rs' := verifyEntry stepA.2 e.id nameB nowB
        (PostVerifyResult.success rs'.1, rs'.2)
  (stepA.1, stepB.1, stepB.2)

/-- The totals computation of `OJTTable`: a record initialised with every
enumerated method at zero, then `acc[entry.method] += entry.hours` over
the entries in order.  The record is modelled on its nine enumerated
keys (an entry whose `method` lies outside the enumeration touches a
foreign key and leaves all nine enumerated keys unchanged). -/
def ojtTotals (es : List Entry) : NDTMethod → Rat :=
  es.foldl
    (fun acc e m => if e.method = m.str then acc m + e.hours else acc m)
    (fun _ => 0)

/-- One request to the entry/verification subsystem. -/
inductive Op where
  | postEntriesOp (uid : Nat) (body : EntriesBody) (now : Nat)
  | verifyRequestOp (uid : Nat) (eid : Option Nat) (body : VerifyRequestBody)
      (now : Nat)
  | getVerifyOp (token : Nat)
  | postVerifyOp (token : Nat) (vn : Option String) (now : Nat)
  | getEntriesOp (uid : Nat)
  | patchUserOp (uid : Nat) (b : PatchUserBody)
  deriving Repr

/-- The store after handling one request (read-only handlers leave it
unchanged). -/
def stepOp (s : Store) : Op → Store
  | .postEntriesOp uid body now => (postEntries s uid body now).2
  | .verifyRequestOp uid eid body now => (verifyRequest s uid eid body now).2
  | .getVerifyOp _ => s
  | .postVerifyOp token vn now => (postVerify s token vn now).2
  | .getEntriesOp _ => s
  | .patchUserOp uid b => (patchUser s uid b).2

/-- The store after handling a sequence of requests. -/
def runOps (s : Store) (ops : List Op) : Store :=
  ops.foldl stepOp s

/-- The first entry row with the given id (rows are keyed by their serial
primary key). -/
def lookupId (s : Store) (i : Nat) : Option Entry :=
  s.entries.find? (fun e => e.id == i)

/-- Database well-formedness: serial ids and issued tokens are below their
counters, ids are distinct (primary key), and present tokens are distinct
(the unique constraint on `verification_token`). -/
def WF (s : Store) : Prop :=
  (∀ e ∈ s.entries, e.id < s.nextEntryId) ∧
  (∀ e ∈ s.entries, ∀ tk, e.verificationToken = some tk → tk < s.nextToken) ∧
  (s.entries.map (fun e => e.id)).Nodup ∧
  (s.entries.filterMap (fun e => e.verificationToken)).Nodup

instance (s : Store) : Decidable (WF s) := by
  unfold WF; infer_instance

/-! Concrete fixtures used to evaluate the handlers on explicit inputs. -/

/-- A user row. -/
def fixtureUser : User := { id := 1, email := "u@x.com", password := none, name := some "Nate", employeeNumber := some "123", createdAt := 0 }

/-- An already-verified entry holding token 0, verified by Alice. -/
def fixtureVerified : Entry := { id := 1, userId := 1, date := 0, location := "Site A", method := "ET", hours := 3, verified := true, verifiedBy := some "Alice", verificationToken := some 0, verifiedAt := some 100, createdAt := 0 }

/-- The same entry before verification. -/
def fixtureUnverified : Entry := { fixtureVerified with verified := false, verifiedBy := none, verifiedAt := none }

/-- A supervisor row. -/
def fixtureSupervisor : Supervisor := { id := 5, userId := 1, name := "J. Smith", email := "j@x.com", phone := "555-1000", certificationLevel := "Level II", company := "Acme", createdAt := 0 }

/-- A store holding one already-verified entry. -/
def storeVerified : Store := { emptyStore with users := [fixtureUser], entries := [fixtureVerified], nextEntryId := 2, nextToken := 1 }

/-- A store holding one still-unverified entry with an outstanding token. -/
def storeUnverified : Store := { emptyStore with users := [fixtureUser], entries := [fixtureUnverified], supervisors := [fixtureSupervisor], nextEntryId := 2, nextToken := 1, nextSupervisorId := 6 }

/-- A supervisor body with no fields. -/
def emptyRawSupervisor : RawSupervisor := { userId := none, name := none, email := none, phone := none, certificationLevel := none, company := none }

/-- A verification-request body referencing the saved supervisor. -/
def fixtureVerifyRequestBody : VerifyRequestBody := { supervisorId := some 5, raw := emptyRawSupervisor }

/-- An entry object whose hours are negative and whose method is outside
the enumeration — invalid by the spec's validation rules. -/
def badHoursRaw : RawEntry := { userId := none, date := some 0, location := some "Site A", method := some "XX", hours := some (-1) }

/-- An entry object missing its `location` field. -/
def missingLocationRaw : RawEntry := { userId := none, date := some 0, location := none, method := some "ET", hours := some 2 }

/-- A well-formed entry object. -/
def goodRaw : RawEntry := { userId := none, date := some 0, location := some "Site A", method := some "ET", hours := some 3 }

/-- An entry row for the aggregator example, varying method and hours. -/
def exampleEntry (m : String) (h : Rat) : Entry := { id := 0, userId := 0, date := 0, location := "", method := m, hours := h, verified := false, verifiedBy := none, verificationToken := none, verifiedAt := none, createdAt := 0 }

/-- The aggregator example input from the spec. -/
def exampleEntries : List Entry :=
  [exampleEntry "ET" 2.5, exampleEntry "ET" 1, exampleEntry "MT" 4]

/-- A concrete trace of later requests: a replay of the redeemed token, a
fresh entry creation, and a token lookup. -/
def exampleOps : List Op :=
  [.postVerifyOp 0 (some "Mallory") 60,
   .postEntriesOp 1 (.single goodRaw) 70,
   .getVerifyOp 0]

/-! Helper lemmas about unique-key lookups and preservation of database
well-formedness. -/

/-- An element that satisfies the predicate and is the only satisfier in
the list is what `find?` returns. -/
theorem find?_eq_of_unique {α} {p : α → Bool} {l : List α} {x : α}
    (hx : x ∈ l) (hpx : p x = true)
    (huniq : ∀ y ∈ l, p y = true → y = x) :
    l.find? p = some x := by
  induction l with
  | nil => cases hx
  | cons a tl ih =>
    by_cases ha : p a = true
    · rw [List.find?_cons_of_pos _ ha, huniq a (List.mem_cons_self a tl) ha]
    · rw [List.find?_cons_of_neg _ ha]
      rcases List.mem_cons.mp hx with h | h
      · exact absurd (h ▸ hpx) ha
      · exact ih h (fun y hy hpy => huniq y (List.mem_cons_of_mem a hy) hpy)

/-- Under a `Nodup` projection through `filterMap`, two members that
project to the same value are equal. -/
theorem eq_of_filterMap_nodup {α β} {f : α → Option β} {l : List α}
    (hnd : (l.filterMap f).Nodup) {x y : α} (hx : x ∈ l) (hy : y ∈ l)
    {t : β} (hfx : f x = some t) (hfy : f y = some t) : x = y := by
  induction l with
  | nil => cases hx
  | cons a tl ih =>
    rcases hfa : f a with _ | b
    · have hnd' : (tl.filterMap f).Nodup := by
        simpa [List.filterMap_cons, hfa] using hnd
      have hx' : x ∈ tl := by
        rcases List.mem_cons.mp hx with hxa | h
        · subst hxa; rw [hfx] at hfa; cases hfa
        · exact h
      have hy' : y ∈ tl := by
        rcases List.mem_cons.mp hy with hya | h
        · subst hya; rw [hfy] at hfa; cases hfa
        · exact h
      exact ih hnd' hx' hy'
    · have hndc : (b :: tl.filterMap f).Nodup := by
        simp only [List.filterMap_cons, hfa] at hnd; exact hnd
      have hnd2 := List.nodup_cons.mp hndc
      rcases List.mem_cons.mp hx with hxa | hxtl <;>
        rcases List.mem_cons.mp hy with hya | hytl
      · rw [hxa, hya]
      · exfalso
        subst hxa
        rw [hfx] at hfa
        cases hfa
        exact hnd2.1 (List.mem_filterMap.mpr ⟨y, hytl, hfy⟩)
      · exfalso
        subst hya
        rw [hfy] at hfa
        cases hfa
        exact hnd2.1 (List.mem_filterMap.mpr ⟨x, hxtl, hfx⟩)
      · exact ih hnd2.2 hxtl hytl

/-- The `verifyEntry` update rewrites `verified`, `verifiedBy` and
`verifiedAt` only: ids are untouched. -/
theorem verifyEntry_map_id (s : Store) (i : Nat) (vb : String) (now : Nat) :
    ((verifyEntry s i vb now).2).entries.map (fun e => e.id)
      = s.entries.map (fun e => e.id) := by
  simp only [verifyEntry, List.map_map]
  apply List.map_congr_left
  intro e _
  by_cases h : (e.id == i) = true <;> simp [Function.comp, h]

/-- The `verifyEntry` update leaves `verificationToken` untouched. -/
theorem verifyEntry_filterMap_token (s : Store) (i : Nat) (vb : String)
    (now : Nat) :
    ((verifyEntry s i vb now).2).entries.filterMap (fun e => e.verificationToken)
      = s.entries.filterMap (fun e => e.verificationToken) := by
  simp only [verifyEntry, List.filterMap_map]
  apply List.filterMap_congr
  intro e _
  by_cases h : (e.id == i) = true <;> simp [Function.comp, h]

/-- The `verifyEntry` update leaves the counters untouched and preserves
well-formedness. -/
theorem WF_verifyEntry (s : Store) (i : Nat) (vb : String) (now : Nat)
    (h : WF s) : WF (verifyEntry s i vb now).2 := by
  obtain ⟨h1, h2, h3, h4⟩ := h
  refine ⟨?_, ?_, ?_, ?_⟩
  · intro e he
    simp only [verifyEntry] at he ⊢
    rcases List.mem_map.mp he with ⟨e0, he0, rfl⟩
    by_cases hc : (e0.id == i) = true <;> simp [hc, h1 e0 he0]
  · intro e he tk htk
    simp only [verifyEntry] at he ⊢
    rcases List.mem_map.mp he with ⟨e0, he0, rfl⟩
    by_cases hc : (e0.id == i) = true
    · simp only [if_pos hc] at htk
      exact h2 e0 he0 tk htk
    · simp only [if_neg hc] at htk
      exact h2 e0 he0 tk htk
  · have := verifyEntry_map_id s i vb now
    simp only [verifyEntry] at this ⊢
    rw [this]; exact h3
  · have := verifyEntry_filterMap_token s i vb now
    simp only [verifyEntry] at this ⊢
    rw [this]; exact h4

/-- Inserting a fresh row preserves well-formedness: the new serial id and
the new token are above everything already present. -/
theorem WF_createEntry (s : Store) (d : InsertEntry) (now : Nat)
    (h : WF s) : WF (createEntry s d now).2 := by
  obtain ⟨h1, h2, h3, h4⟩ := h
  refine ⟨?_, ?_, ?_, ?_⟩
  · intro e he
    simp only [createEntry, List.mem_append, List.mem_singleton] at he
    rcases he with he | rfl
    · exact Nat.lt_succ_of_lt (h1 e he)
    · exact Nat.lt_succ_self _
  · intro e he tk htk
    simp only [createEntry, List.mem_append, List.mem_singleton] at he
    rcases he with he | rfl
    · exact Nat.lt_succ_of_lt (h2 e he tk htk)
    · cases htk
      exact Nat.lt_succ_self _
  · simp only [createEntry, List.map_append, List.nodup_append]
    refine ⟨h3, List.nodup_singleton _, ?_⟩
    intro a ha hb
    simp only [List.mem_map] at ha
    rcases ha with ⟨e0, he0, rfl⟩
    simp only [List.map_cons, List.map_nil, List.mem_singleton] at hb
    exact absurd hb (Nat.ne_of_lt (h1 e0 he0))
  · simp only [createEntry, List.filterMap_append, List.nodup_append]
    refine ⟨h4, ?_, ?_⟩
    · simp [List.filterMap_cons]
    · intro a ha hb
      simp only [List.mem_filterMap] at ha
      rcases ha with ⟨e0, he0, hf⟩
      simp only [List.filterMap_cons, List.filterMap_nil] at hb
      simp only [List.mem_singleton] at hb
      subst hb
      exact Nat.lt_irrefl _ (h2 e0 he0 _ hf)

/-- A row already present keeps its `lookupId` result when a fresh row is
appended. -/
theorem lookupId_createEntry (s : Store) (d : InsertEntry) (now : Nat)
    (e1 : Entry) (h : lookupId s e1.id = some e1) :
    lookupId (createEntry s d now).2 e1.id = some e1 := by
  simp only [lookupId, createEntry] at h ⊢
  rw [List.find?_append, h]
  rfl

/-- Searching a mapped list with a predicate the mapping does not disturb
is searching the original list and mapping the hit. -/
theorem find?_map_of_fix {α} {l : List α} {p : α → Bool} {g : α → α}
    (hpg : ∀ e, p (g e) = p e) :
    (l.map g).find? p = (l.find? p).map g := by
  rw [List.find?_map]
  have hc : (p ∘ g) = p := funext fun e => by simp [Function.comp, hpg e]
  rw [hc]

/-- A row whose id is not the update target keeps its `lookupId` result
through `verifyEntry`. -/
theorem lookupId_verifyEntry_ne (s : Store) (i : Nat) (vb : String)
    (now : Nat) (e1 : Entry) (hne : e1.id ≠ i)
    (h : lookupId s e1.id = some e1) :
    lookupId (verifyEntry s i vb now).2 e1.id = some e1 := by
  simp only [lookupId, verifyEntry] at h ⊢
  rw [find?_map_of_fix (fun e => by by_cases hc : (e.id == i) = true <;> simp [hc]), h]
  have hf : (e1.id == i) = false := by simpa using hne
  simp only [Option.map_some', hf, Bool.false_eq_true, if_false]

/-- The row `verifyEntry` targets, when present, comes back updated. -/
theorem lookupId_verifyEntry_eq (s : Store) (vb : String) (now : Nat)
    (e1 : Entry) (h : lookupId s e1.id = some e1) :
    lookupId (verifyEntry s e1.id vb now).2 e1.id
      = some { e1 with verified := true, verifiedBy := some vb,
                       verifiedAt := some now } := by
  simp only [lookupId, verifyEntry] at h ⊢
  rw [find?_map_of_fix (fun e => by by_cases hc : (e.id == e1.id) = true <;> simp [hc]), h]
  simp

/-- The returned row of `verifyEntry` is its updated target when the
target is present. -/
theorem verifyEntry_fst (s : Store) (vb : String) (now : Nat) (e1 : Entry)
    (h : lookupId s e1.id = some e1) :
    (verifyEntry s e1.id vb now).1
      = some { e1 with verified := true, verifiedBy := some vb,
                       verifiedAt := some now } := by
  have := lookupId_verifyEntry_eq s vb now e1 h
  simpa [lookupId, verifyEntry] using this

/-- The verification-request handler never touches the entries table or
its counters: it reads the entry and reuses its stored token. -/
theorem verifyRequest_state (s : Store) (uid : Nat) (eid : Option Nat)
    (body : VerifyRequestBody) (now : Nat) :
    ((verifyRequest s uid eid body now).2).entries = s.entries ∧
    ((verifyRequest s uid eid body now).2).nextEntryId = s.nextEntryId ∧
    ((verifyRequest s uid eid body now).2).nextToken = s.nextToken := by
  unfold verifyRequest
  rcases eid with _ | eid
  · exact ⟨rfl, rfl, rfl⟩
  · dsimp only
    rcases getEntry s eid with _ | e
    · exact ⟨rfl, rfl, rfl⟩
    · dsimp only
      by_cases h1 : e.userId ≠ uid
      · simp [if_pos h1]
      · simp only [if_neg h1]
        by_cases h2 : e.verified
        · simp [if_pos h2]
        · simp only [if_neg h2]
          rcases body.supervisorId with _ | sid
          · dsimp only
            rcases insertSupervisorSchemaParse
                { body.raw with userId := some uid } with _ | d
            · exact ⟨rfl, rfl, rfl⟩
            · dsimp only
              rcases getUser (createSupervisor s d now).2 uid with _ | u <;>
                exact ⟨rfl, rfl, rfl⟩
          · dsimp only
            rcases getSupervisor s sid with _ | sup
            · exact ⟨rfl, rfl, rfl⟩
            · dsimp only
              rcases getUser s uid with _ | u <;> exact ⟨rfl, rfl, rfl⟩

/-- The profile-update handler never touches the entries table or its
counters. -/
theorem patchUser_state (s : Store) (uid : Nat) (b : PatchUserBody) :
    ((patchUser s uid b).2).entries = s.entries ∧
    ((patchUser s uid b).2).nextEntryId = s.nextEntryId ∧
    ((patchUser s uid b).2).nextToken = s.nextToken := by
  unfold patchUser
  rcases getUser s uid with _ | u
  · exact ⟨rfl, rfl, rfl⟩
  · exact ⟨rfl, rfl, rfl⟩

/-- Well-formedness and entry lookups transfer across stores that agree on
the entries table and its counters. -/
theorem WF_of_state_eq {s s' : Store} (he : s'.entries = s.entries)
    (hi : s'.nextEntryId = s.nextEntryId) (ht : s'.nextToken = s.nextToken)
    (h : WF s) : WF s' := by
  unfold WF at h ⊢
  rw [he, hi, ht]
  exact h

/-- With unique tokens, the token lookup of an entry that holds the token
returns that entry. -/
theorem getByToken_of_WF {s : Store} {e : Entry} {t : Nat} (hwf : WF s)
    (hmem : e ∈ s.entries) (ht : e.verificationToken = some t) :
    getEntryByVerificationToken s t = some e := by
  apply find?_eq_of_unique hmem
  · simp [ht]
  · intro y hy hpy
    have hyt : y.verificationToken = some t := by simpa using hpy
    exact eq_of_filterMap_nodup hwf.2.2.2 hy hmem hyt ht

/-- A redemption request preserves well-formedness and never disturbs a
row that is already verified. -/
theorem postVerify_preserves (s : Store) (t' : Nat) (vn : Option String)
    (now : Nat) (e1 : Entry) (hv : e1.verified = true) (hwf : WF s)
    (hl : lookupId s e1.id = some e1) :
    WF (postVerify s t' vn now).2 ∧
    lookupId (postVerify s t' vn now).2 e1.id = some e1 := by
  unfold postVerify
  rcases vn with _ | n
  · exact ⟨hwf, hl⟩
  · dsimp only
    by_cases hn : n = ""
    · simp only [if_pos hn]; exact ⟨hwf, hl⟩
    · simp only [if_neg hn]
      rcases hfind : getEntryByVerificationToken s t' with _ | e2
      · exact ⟨hwf, hl⟩
      · dsimp only
        by_cases hve : e2.verified
        · simp only [if_pos hve]; exact ⟨hwf, hl⟩
        · simp only [if_neg hve]
          have he2mem := List.mem_of_find?_eq_some hfind
          have he1mem := List.mem_of_find?_eq_some hl
          have hne : e1.id ≠ e2.id := by
            intro heq
            have he : e1 = e2 :=
              List.inj_on_of_nodup_map hwf.2.2.1 he1mem he2mem heq
            exact hve (he ▸ hv)
          exact ⟨WF_verifyEntry s e2.id n now hwf,
                 lookupId_verifyEntry_ne s e2.id n now e1 hne hl⟩

/-- The batch-creation loop preserves well-formedness and existing rows. -/
theorem postEntriesLoop_preserves (uid : Nat) (rs : List RawEntry)
    (now : Nat) (e1 : Entry) :
    ∀ (s : Store) (acc : List Entry), WF s → lookupId s e1.id = some e1 →
    WF (postEntriesLoop s uid rs now acc).2 ∧
    lookupId (postEntriesLoop s uid rs now acc).2 e1.id = some e1 := by
  induction rs with
  | nil => intro s acc hwf hl; exact ⟨hwf, hl⟩
  | cons r rest ih =>
    intro s acc hwf hl
    unfold postEntriesLoop
    rcases insertEntrySchemaParse { r with userId := some uid } with _ | d
    · exact ⟨hwf, hl⟩
    · exact ih (createEntry s d now).2 _
        (WF_createEntry s d now hwf) (lookupId_createEntry s d now e1 hl)

/-- Entry creation requests preserve well-formedness and existing rows. -/
theorem postEntries_preserves (s : Store) (uid : Nat) (body : EntriesBody)
    (now : Nat) (e1 : Entry) (hwf : WF s) (hl : lookupId s e1.id = some e1) :
    WF (postEntries s uid body now).2 ∧
    lookupId (postEntries s uid body now).2 e1.id = some e1 := by
  unfold postEntries
  rcases body with r | rs
  · dsimp only
    rcases insertEntrySchemaParse { r with userId := some uid } with _ | d
    · exact ⟨hwf, hl⟩
    · exact ⟨WF_createEntry s d now hwf, lookupId_createEntry s d now e1 hl⟩
  · exact postEntriesLoop_preserves uid rs now e1 s [] hwf hl

/-- Every request of the subsystem preserves well-formedness and the full
record of an already-verified entry. -/
theorem stepOp_preserves (op : Op) (s : Store) (e1 : Entry)
    (hv : e1.verified = true) (hwf : WF s)
    (hl : lookupId s e1.id = some e1) :
    WF (stepOp s op) ∧ lookupId (stepOp s op) e1.id = some e1 := by
  cases op with
  | postEntriesOp uid body now =>
    exact postEntries_preserves s uid body now e1 hwf hl
  | verifyRequestOp uid eid body now =>
    obtain ⟨he, hi, ht⟩ := verifyRequest_state s uid eid body now
    refine ⟨WF_of_state_eq he hi ht hwf, ?_⟩
    simp only [stepOp, lookupId, he]
    exact hl
  | getVerifyOp t => exact ⟨hwf, hl⟩
  | postVerifyOp t vn now => exact postVerify_preserves s t vn now e1 hv hwf hl
  | getEntriesOp uid => exact ⟨hwf, hl⟩
  | patchUserOp uid b =>
    obtain ⟨he, hi, ht⟩ := patchUser_state s uid b
    refine ⟨WF_of_state_eq he hi ht hwf, ?_⟩
    simp only [stepOp, lookupId, he]
    exact hl

/-- Trace form of `stepOp_preserves`. -/
theorem runOps_preserves (ops : List Op) (e1 : Entry)
    (hv : e1.verified = true) :
    ∀ (s : Store), WF s → lookupId s e1.id = some e1 →
    WF (runOps s ops) ∧ lookupId (runOps s ops) e1.id = some e1 := by
  induction ops with
  | nil => intro s hwf hl; exact ⟨hwf, hl⟩
  | cons op rest ih =>
    intro s hwf hl
    obtain ⟨hwf', hl'⟩ := stepOp_preserves op s e1 hv hwf hl
    exact ih (stepOp s op) hwf' hl'

/-! Claim theorems. -/

/-- C1 (counterexample): the claim that "an entry as returned by creation
carries no verification token yet" fails at a concrete input —
`createEntry` on the empty store draws a token at creation time and the
returned row already carries it. -/
theorem C1_counterexample :
    ((createEntry emptyStore ⟨1, 0, "Site A", "ET", 3⟩ 0).1).verificationToken
      ≠ none := by decide

/-- C1 (amended): the verification token is generated once, at entry
creation, and stored on the row; a verification request that reaches the
ok response never touches the entries table and embeds the entry's
pre-existing `verificationToken` in the returned URL, so re-requesting
does not replace or invalidate the earlier link. -/
theorem C1_token_at_creation (s : Store) (uid eid : Nat)
    (body : VerifyRequestBody) (now : Nat) (sup : Supervisor) (e : Entry)
    (tk : Option Nat)
    (h : (verifyRequest s uid (some eid) body now).1 = .ok sup e tk) :
    tk = e.verificationToken ∧
    ((verifyRequest s uid (some eid) body now).2).entries = s.entries ∧
    getEntry s eid = some e ∧
    ∀ (d : InsertEntry) (now2 : Nat),
      ((createEntry s d now2).1).verificationToken = some s.nextToken := by
  have hstate := (verifyRequest_state s uid (some eid) body now).1
  unfold verifyRequest at h
  dsimp only at h
  rcases hge : getEntry s eid with _ | e0 <;> rw [hge] at h
  · simp at h
  · dsimp only at h
    by_cases h1 : e0.userId ≠ uid
    · simp only [if_pos h1] at h; simp at h
    · simp only [if_neg h1] at h
      by_cases h2 : e0.verified
      · simp only [if_pos h2] at h; simp at h
      · simp only [if_neg h2] at h
        rcases hsid : body.supervisorId with _ | sid <;> rw [hsid] at h
        · dsimp only at h
          rcases hp : insertSupervisorSchemaParse
              { body.raw with userId := some uid } with _ | d0 <;> rw [hp] at h
          · simp at h
          · dsimp only at h
            rcases hgu : getUser (createSupervisor s d0 now).2 uid
                with _ | u0 <;> rw [hgu] at h
            · simp at h
            · simp only [VerifyRequestResult.ok.injEq] at h
              obtain ⟨hsup, hee, htk⟩ := h
              subst hee
              exact ⟨htk.symm, hstate, rfl, fun d now2 => rfl⟩
        · dsimp only at h
          rcases hgs : getSupervisor s sid with _ | sup0 <;> rw [hgs] at h
          · simp at h
          · dsimp only at h
            rcases hgu : getUser s uid with _ | u0 <;> rw [hgu] at h
            · simp at h
            · simp only [VerifyRequestResult.ok.injEq] at h
              obtain ⟨hsup, hee, htk⟩ := h
              subst hee
              exact ⟨htk.symm, hstate, rfl, fun d now2 => rfl⟩

/-- C1 (witness): the amended theorem evaluated on a store with one
unverified entry (token 0) and one saved supervisor. -/
theorem C1_token_at_creation_witness :
    (verifyRequest storeUnverified 1 (some 1) fixtureVerifyRequestBody 0).1
      = .ok fixtureSupervisor fixtureUnverified (some 0) ∧
    ((some 0 : Option Nat) = fixtureUnverified.verificationToken ∧
     ((verifyRequest storeUnverified 1 (some 1) fixtureVerifyRequestBody 0).2).entries
        = storeUnverified.entries ∧
     getEntry storeUnverified 1 = some fixtureUnverified ∧
     ∀ (d : InsertEntry) (now2 : Nat),
       ((createEntry storeUnverified d now2).1).verificationToken
         = some storeUnverified.nextToken) :=
  ⟨by decide,
   C1_token_at_creation storeUnverified 1 1 fixtureVerifyRequestBody 0
     fixtureSupervisor fixtureUnverified (some 0) (by decide)⟩

/-- C2: the spec requires the redemption write to be a conditional update
("set verified = true where id = ? and verified = false") whose zero-row
failure is reported as AlreadyVerified.  `verifyEntry` filters on the id
alone: evaluated on a store whose only entry is already verified by Alice
at time 100, the update still matches the row — a row is returned rather
than a zero-row result — and Alice's attestation is overwritten with
Bob's. -/
theorem C2_unconditional_write :
    storeVerified.entries.map (fun e => e.verifiedBy) = [some "Alice"] ∧
    ((verifyEntry storeVerified 1 "Bob" 200).1).isSome = true ∧
    ((verifyEntry storeVerified 1 "Bob" 200).2).entries.map
        (fun e => e.verifiedBy) = [some "Bob"] ∧
    ((verifyEntry storeVerified 1 "Bob" 200).2).entries.map
        (fun e => e.verifiedAt) = [some 200] := by decide

/-- C6: the spec requires that two racing redemptions of the same
still-valid token produce exactly one success and one AlreadyVerified
failure.  In the interleaving where both handlers read the entry before
either writes, both reads see `verified = false`, both writes match the
row, and both requests answer with the 200 success response; the second
write also overwrites the first verifier's attestation. -/
theorem C6_race_two_successes :
    (postVerifyRace storeUnverified 0 "A" "B" 10 20).1.isSuccess = true ∧
    (postVerifyRace storeUnverified 0 "A" "B" 10 20).2.1.isSuccess = true ∧
    ((postVerifyRace storeUnverified 0 "A" "B" 10 20).2.2).entries.map
        (fun e => e.verifiedBy) = [some "B"] := by decide

/-- C4 (counterexample): on a store whose only entry holds token 0 and is
already verified, an unknown token is answered 404 "Entry not found or
already verified" while the stale token is answered 400 "Entry already
verified", on both the lookup and the redemption endpoint — the two
failures are distinguishable, refuting the claimed collapse. -/
theorem C4_counterexample :
    getVerify storeVerified 999 = .notFound ∧
    getVerify storeVerified 0 = .alreadyVerified ∧
    getVerifyHttp .notFound ≠ getVerifyHttp .alreadyVerified ∧
    (postVerify storeVerified 999 (some "J. Smith") 5).1 = .notFound ∧
    (postVerify storeVerified 0 (some "J. Smith") 5).1 = .alreadyVerified ∧
    postVerifyHttp .notFound ≠ postVerifyHttp .alreadyVerified := by decide

/-- C4 (amended): an unknown token and a stale (already-verified) token
produce systematically different observable outcomes on both
unauthenticated endpoints: 404 "Entry not found or already verified"
versus 400 "Entry already verified", so a caller can distinguish them. -/
theorem C4_distinguishable (s : Store) (ta tb : Nat) (e : Entry)
    (h1 : getEntryByVerificationToken s ta = none)
    (h2 : getEntryByVerificationToken s tb = some e)
    (h3 : e.verified = true) (vn : String) (hvn : vn ≠ "") (now : Nat) :
    getVerify s ta = .notFound ∧
    getVerify s tb = .alreadyVerified ∧
    (postVerify s ta (some vn) now).1 = .notFound ∧
    (postVerify s tb (some vn) now).1 = .alreadyVerified ∧
    getVerifyHttp (getVerify s ta) ≠ getVerifyHttp (getVerify s tb) ∧
    postVerifyHttp (postVerify s ta (some vn) now).1
      ≠ postVerifyHttp (postVerify s tb (some vn) now).1 := by
  have g1 : getVerify s ta = .notFound := by
    unfold getVerify; rw [h1]
  have g2 : getVerify s tb = .alreadyVerified := by
    unfold getVerify; rw [h2]; simp [h3]
  have p1 : (postVerify s ta (some vn) now).1 = .notFound := by
    unfold postVerify; dsimp only; rw [if_neg hvn, h1]
  have p2 : (postVerify s tb (some vn) now).1 = .alreadyVerified := by
    unfold postVerify; dsimp only; rw [if_neg hvn, h2]; simp [h3]
  refine ⟨g1, g2, p1, p2, ?_, ?_⟩
  · rw [g1, g2]; decide
  · rw [p1, p2]; decide

/-- C4 (witness): the amended theorem evaluated on the store with one
verified entry, with token 999 unknown and token 0 stale. -/
theorem C4_distinguishable_witness :
    getEntryByVerificationToken storeVerified 999 = none ∧
    getEntryByVerificationToken storeVerified 0 = some fixtureVerified ∧
    fixtureVerified.verified = true ∧
    "J. Smith" ≠ "" ∧
    (getVerify storeVerified 999 = .notFound ∧
     getVerify storeVerified 0 = .alreadyVerified ∧
     (postVerify storeVerified 999 (some "J. Smith") 5).1 = .notFound ∧
     (postVerify storeVerified 0 (some "J. Smith") 5).1 = .alreadyVerified ∧
     getVerifyHttp (getVerify storeVerified 999)
       ≠ getVerifyHttp (getVerify storeVerified 0) ∧
     postVerifyHttp (postVerify storeVerified 999 (some "J. Smith") 5).1
       ≠ postVerifyHttp (postVerify storeVerified 0 (some "J. Smith") 5).1) :=
  ⟨by decide, by decide, by decide, by decide,
   C4_distinguishable storeVerified 999 0 fixtureVerified (by decide)
     (by decide) (by decide) "J. Smith" (by decide) 5⟩

/-- C5 (counterexample): an entry object with hours −1 and method "XX" —
invalid under the spec's validation rules — passes `insertEntrySchema`
and is persisted: the response is 201 with the created row, not a
validation error, refuting "rejected as a validation error before any
persistence write occurs". -/
theorem C5_counterexample :
    (postEntries emptyStore 1 (.single badHoursRaw) 0).1 ≠ .validationError ∧
    ((postEntries emptyStore 1 (.single badHoursRaw) 0).2).entries.map
        (fun e => e.hours) = [-1] ∧
    ((postEntries emptyStore 1 (.single badHoursRaw) 0).2).entries.map
        (fun e => e.method) = ["XX"] := by decide

/-- C5 (amended): validation checks only that the five picked fields are
present — any hours value and any method string pass — and the array
branch inserts objects one at a time with no surrounding transaction, so
a batch whose second object is malformed still reports a validation error
while having persisted its first object. -/
theorem C5_schema_untyped :
    (∀ (u d : Nat) (l m : String) (q : Rat),
        insertEntrySchemaParse ⟨some u, some d, some l, some m, some q⟩
          = some ⟨u, d, l, m, q⟩) ∧
    (∀ (s : Store) (uid now : Nat),
        postEntries s uid (.single missingLocationRaw) now
          = (.validationError, s)) ∧
    (∀ (s : Store) (uid now : Nat),
        (postEntries s uid (.batch [goodRaw, missingLocationRaw]) now).1
          = .validationError ∧
        ((postEntries s uid (.batch [goodRaw, missingLocationRaw]) now).2).entries.length
          = s.entries.length + 1) := by
  refine ⟨fun u d l m q => rfl, fun s uid now => rfl, fun s uid now => ⟨rfl, ?_⟩⟩
  simp [postEntries, postEntriesLoop, insertEntrySchemaParse, createEntry,
    goodRaw, missingLocationRaw]

/-- C7: for every entry input with positive hours and an enumerated
method, creation succeeds against any well-formed store: the returned row
has `verified = false`, `verifiedAt` null, `verifiedBy` null, and the row
is stored under its fresh id. -/
theorem C7_create_unverified (s : Store) (d : InsertEntry) (now : Nat)
    (hh : 0 < d.hours) (hm : d.method ∈ methodStrings) (hwf : WF s) :
    ((createEntry s d now).1).verified = false ∧
    ((createEntry s d now).1).verifiedAt = none ∧
    ((createEntry s d now).1).verifiedBy = none ∧
    lookupId (createEntry s d now).2 ((createEntry s d now).1).id
      = some (createEntry s d now).1 := by
  refine ⟨rfl, rfl, rfl, ?_⟩
  simp only [lookupId, createEntry, List.find?_append]
  have hnone : s.entries.find? (fun e => e.id == s.nextEntryId) = none := by
    apply List.find?_eq_none.mpr
    intro e he
    simp only [beq_iff_eq]
    exact Nat.ne_of_lt (hwf.1 e he)
  rw [hnone]
  simp

/-- C7 (witness): creation of a 3-hour ET entry on the empty store. -/
theorem C7_create_unverified_witness :
    (0 : Rat) < 3 ∧ "ET" ∈ methodStrings ∧ WF emptyStore ∧
    (((createEntry emptyStore ⟨1, 0, "Site A", "ET", 3⟩ 5).1).verified = false ∧
     ((createEntry emptyStore ⟨1, 0, "Site A", "ET", 3⟩ 5).1).verifiedAt = none ∧
     ((createEntry emptyStore ⟨1, 0, "Site A", "ET", 3⟩ 5).1).verifiedBy = none ∧
     lookupId (createEntry emptyStore ⟨1, 0, "Site A", "ET", 3⟩ 5).2
         ((createEntry emptyStore ⟨1, 0, "Site A", "ET", 3⟩ 5).1).id
       = some (createEntry emptyStore ⟨1, 0, "Site A", "ET", 3⟩ 5).1) :=
  ⟨by decide, by decide, by decide,
   C7_create_unverified emptyStore ⟨1, 0, "Site A", "ET", 3⟩ 5
     (by decide) (by decide) (by decide)⟩

/-- Accumulator form of the `OJTTable` totals fold. -/
theorem ojtTotals_foldl (es : List Entry) (acc : NDTMethod → Rat)
    (m : NDTMethod) :
    es.foldl
        (fun acc e m => if e.method = m.str then acc m + e.hours else acc m)
        acc m
      = acc m
        + ((es.filter (fun e => e.method == m.str)).map (fun e => e.hours)).sum := by
  induction es generalizing acc with
  | nil => simp
  | cons e tl ih =>
    rw [List.foldl_cons, ih]
    by_cases h : e.method = m.str
    · simp [List.filter_cons, h, add_assoc]
    · simp [List.filter_cons, h]

/-- C8: the `OJTTable` totals map each enumerated method to the sum of
hours over the input entries carrying that method's string, every
enumerated method starting at zero; on the spec's example input the
totals are ET 3.5, MT 4 and every other method 0. -/
theorem C8_totals_correct :
    (∀ (es : List Entry) (m : NDTMethod),
        ojtTotals es m
          = ((es.filter (fun e => e.method == m.str)).map (fun e => e.hours)).sum) ∧
    ojtTotals exampleEntries .ET = 3.5 ∧
    ojtTotals exampleEntries .MT = 4 ∧
    ojtTotals exampleEntries .RFT = 0 ∧
    ojtTotals exampleEntries .PT = 0 ∧
    ojtTotals exampleEntries .RT = 0 ∧
    ojtTotals exampleEntries .UT_THK = 0 ∧
    ojtTotals exampleEntries .UTSW = 0 ∧
    ojtTotals exampleEntries .PMI = 0 ∧
    ojtTotals exampleEntries .LSI = 0 := by
  have hgen : ∀ (es : List Entry) (m : NDTMethod),
      ojtTotals es m
        = ((es.filter (fun e => e.method == m.str)).map (fun e => e.hours)).sum := by
    intro es m
    unfold ojtTotals
    rw [ojtTotals_foldl]
    simp
  refine ⟨hgen, ?_, ?_, ?_, ?_, ?_, ?_, ?_, ?_, ?_⟩ <;>
    · rw [hgen]
      simp [exampleEntries, exampleEntry, NDTMethod.str]
      try norm_num

/-- C9: for every user, the entry listing returns exactly that user's
rows — a permutation of the userId filter of the table, with membership
exactly the user's rows — sorted by date in descending order. -/
theorem C9_entries_sorted (s : Store) (uid : Nat) :
    (getEntries s uid).Perm (s.entries.filter (fun e => e.userId == uid)) ∧
    List.Sorted (fun a b : Entry => b.date ≤ a.date) (getEntries s uid) ∧
    ∀ e : Entry, e ∈ getEntries s uid ↔ e ∈ s.entries ∧ e.userId = uid := by
  have hperm : (getEntries s uid).Perm
      (s.entries.filter (fun e => e.userId == uid)) :=
    List.mergeSort_perm _ _
  refine ⟨hperm, ?_, ?_⟩
  · have htrans : ∀ (a b c : Entry), decide (b.date ≤ a.date) = true →
        decide (c.date ≤ b.date) = true → decide (c.date ≤ a.date) = true := by
      intro a b c h1 h2
      simp only [decide_eq_true_eq] at h1 h2 ⊢
      omega
    have htotal : ∀ (a b : Entry),
        (decide (b.date ≤ a.date) || decide (a.date ≤ b.date)) = true := by
      intro a b
      simp only [Bool.or_eq_true, decide_eq_true_eq]
      omega
    have hp := List.sorted_mergeSort htrans htotal
      (s.entries.filter (fun e => e.userId == uid))
    exact hp.imp (fun h => of_decide_eq_true h)
  · intro e
    rw [hperm.mem_iff, List.mem_filter]
    simp

/-- C10: a profile update can change only `name` and `employeeNumber` on
the caller's row — id, email, password and creation time are untouched,
and so is every other user's row — and a field that is omitted or sent as
the empty string keeps its stored value, so neither field can be cleared
to empty through this endpoint. -/
theorem C10_patch_frame (s : Store) (uid : Nat) (b : PatchUserBody)
    (u : User) (h : getUser s uid = some u) :
    ∃ u', (patchUser s uid b).1 = some u' ∧
      u'.id = u.id ∧ u'.email = u.email ∧ u'.password = u.password ∧
      u'.createdAt = u.createdAt ∧
      u'.name = jsOrElse b.name u.name ∧
      u'.employeeNumber = jsOrElse b.employeeNumber u.employeeNumber ∧
      (b.name = none → u'.name = u.name) ∧
      (b.name = some "" → u'.name = u.name) ∧
      (b.employeeNumber = none → u'.employeeNumber = u.employeeNumber) ∧
      (b.employeeNumber = some "" → u'.employeeNumber = u.employeeNumber) ∧
      (u.name ≠ some "" → u'.name ≠ some "") ∧
      (u.employeeNumber ≠ some "" → u'.employeeNumber ≠ some "") ∧
      ∀ w ∈ s.users, w.id ≠ u.id → w ∈ ((patchUser s uid b).2).users := by
  have hid : u.id = uid := by simpa using List.find?_some h
  have hfix : ∀ w : User, ((fun w : User =>
      if w.id == u.id then
        { w with name := jsOrElse b.name u.name,
                 employeeNumber := jsOrElse b.employeeNumber u.employeeNumber }
      else w) w).id = w.id := by
    intro w
    by_cases hc : (w.id == u.id) = true <;> simp [hc]
  have hfindu : s.users.find? (fun w => w.id == u.id) = some u := by
    rw [hid]; exact h
  refine ⟨{ u with name := jsOrElse b.name u.name, employeeNumber := jsOrElse b.employeeNumber u.employeeNumber },
    ?_, rfl, rfl, rfl, rfl, rfl, rfl, ?_, ?_, ?_, ?_, ?_, ?_, ?_⟩
  · unfold patchUser
    rw [h]
    dsimp only
    rw [find?_map_of_fix (fun w => by
      by_cases hc : (w.id == u.id) = true <;> simp [hc]), hfindu]
    simp
  · intro hb; rw [hb]; rfl
  · intro hb; rw [hb]; simp [jsOrElse]
  · intro hb; rw [hb]; rfl
  · intro hb; rw [hb]; simp [jsOrElse]
  · intro hne
    rcases hbn : b.name with _ | v
    · simpa [jsOrElse] using hne
    · by_cases hv : v = ""
      · simpa [jsOrElse, hv] using hne
      · simp [jsOrElse, hv]
  · intro hne
    rcases hbn : b.employeeNumber with _ | v
    · simpa [jsOrElse] using hne
    · by_cases hv : v = ""
      · simpa [jsOrElse, hv] using hne
      · simp [jsOrElse, hv]
  · intro w hw hne
    unfold patchUser
    rw [h]
    dsimp only
    refine List.mem_map.mpr ⟨w, hw, ?_⟩
    have hc : (w.id == u.id) = false := by simpa using hne
    simp [hc]

/-- C10 (witness): updating the fixture user with an empty name and no
employee number leaves both fields as they were. -/
theorem C10_patch_frame_witness :
    getUser storeUnverified 1 = some fixtureUser ∧
    (∃ u', (patchUser storeUnverified 1 ⟨some "", none⟩).1 = some u' ∧
      u'.id = fixtureUser.id ∧ u'.email = fixtureUser.email ∧
      u'.password = fixtureUser.password ∧
      u'.createdAt = fixtureUser.createdAt ∧
      u'.name = jsOrElse (some "") fixtureUser.name ∧
      u'.employeeNumber = jsOrElse none fixtureUser.employeeNumber ∧
      ((some "" : Option String) = none → u'.name = fixtureUser.name) ∧
      ((some "" : Option String) = some "" → u'.name = fixtureUser.name) ∧
      ((none : Option String) = none →
        u'.employeeNumber = fixtureUser.employeeNumber) ∧
      ((none : Option String) = some "" →
        u'.employeeNumber = fixtureUser.employeeNumber) ∧
      (fixtureUser.name ≠ some "" → u'.name ≠ some "") ∧
      (fixtureUser.employeeNumber ≠ some "" → u'.employeeNumber ≠ some "") ∧
      ∀ w ∈ storeUnverified.users, w.id ≠ fixtureUser.id →
        w ∈ ((patchUser storeUnverified 1 ⟨some "", none⟩).2).users) :=
  ⟨by decide,
   C10_patch_frame storeUnverified 1 ⟨some "", none⟩ fixtureUser (by decide)⟩

/-- C3: once a redemption of an entry's token succeeds it sets
`verified = true`, `verifiedBy` and `verifiedAt` from that request; after
any sequence of later requests the row still holds exactly those values —
no request of the subsystem returns it to unverified or disturbs the
attestation — and every later redemption attempt with the same token, by
any caller, is answered AlreadyVerified and leaves the store unchanged. -/
theorem C3_verified_terminal (s : Store) (e : Entry) (t : Nat) (n : String)
    (now : Nat) (ops : List Op)
    (hwf : WF s) (hmem : lookupId s e.id = some e)
    (ht : e.verificationToken = some t) (hunv : e.verified = false)
    (hn : n ≠ "") :
    (postVerify s t (some n) now).1
      = .success (some { e with verified := true, verifiedBy := some n, verifiedAt := some now }) ∧
    lookupId (runOps (postVerify s t (some n) now).2 ops) e.id
      = some { e with verified := true, verifiedBy := some n, verifiedAt := some now } ∧
    ∀ (vn : String) (now2 : Nat), vn ≠ "" →
      postVerify (runOps (postVerify s t (some n) now).2 ops) t (some vn) now2
        = (.alreadyVerified, runOps (postVerify s t (some n) now).2 ops) := by
  have hememb := List.mem_of_find?_eq_some hmem
  have hfind : getEntryByVerificationToken s t = some e :=
    getByToken_of_WF hwf hememb ht
  have h1 : (postVerify s t (some n) now).1
      = .success (some { e with verified := true, verifiedBy := some n, verifiedAt := some now }) := by
    unfold postVerify
    dsimp only
    rw [if_neg hn, hfind]
    dsimp only
    simp only [hunv, Bool.false_eq_true, if_false]
    rw [verifyEntry_fst s n now e hmem]
  have hs1 : (postVerify s t (some n) now).2 = (verifyEntry s e.id n now).2 := by
    unfold postVerify
    dsimp only
    rw [if_neg hn, hfind]
    dsimp only
    simp only [hunv, Bool.false_eq_true, if_false]
  have hwf1 : WF (verifyEntry s e.id n now).2 := WF_verifyEntry s e.id n now hwf
  have hl1 : lookupId (verifyEntry s e.id n now).2 e.id
      = some { e with verified := true, verifiedBy := some n, verifiedAt := some now } :=
    lookupId_verifyEntry_eq s n now e hmem
  obtain ⟨hwf2, hl2⟩ := runOps_preserves ops
    { e with verified := true, verifiedBy := some n, verifiedAt := some now }
    rfl (verifyEntry s e.id n now).2 hwf1 hl1
  refine ⟨h1, ?_, ?_⟩
  · rw [hs1]
    exact hl2
  · intro vn now2 hvn
    rw [hs1]
    have hmem2 := List.mem_of_find?_eq_some hl2
    have hfind2 : getEntryByVerificationToken
        (runOps (verifyEntry s e.id n now).2 ops) t
        = some { e with verified := true, verifiedBy := some n, verifiedAt := some now } :=
      getByToken_of_WF hwf2 hmem2 ht
    unfold postVerify
    dsimp only
    rw [if_neg hvn, hfind2]
    dsimp only
    simp

/-- C3 (witness): the fixture token is redeemed by J. Smith at time 50;
after a replayed redemption, a fresh entry creation and a token lookup,
the row still carries exactly that attestation and a further redemption
attempt is answered AlreadyVerified. -/
theorem C3_verified_terminal_witness :
    WF storeUnverified ∧
    lookupId storeUnverified fixtureUnverified.id = some fixtureUnverified ∧
    fixtureUnverified.verificationToken = some 0 ∧
    fixtureUnverified.verified = false ∧
    "J. Smith" ≠ "" ∧
    ((postVerify storeUnverified 0 (some "J. Smith") 50).1
       = .success (some { fixtureUnverified with verified := true, verifiedBy := some "J. Smith", verifiedAt := some 50 }) ∧
     lookupId (runOps (postVerify storeUnverified 0 (some "J. Smith") 50).2 exampleOps)
         fixtureUnverified.id
       = some { fixtureUnverified with verified := true, verifiedBy := some "J. Smith", verifiedAt := some 50 } ∧
     ∀ (vn : String) (now2 : Nat), vn ≠ "" →
       postVerify (runOps (postVerify storeUnverified 0 (some "J. Smith") 50).2 exampleOps)
           0 (some vn) now2
         = (.alreadyVerified,
            runOps (postVerify storeUnverified 0 (some "J. Smith") 50).2 exampleOps)) :=
  ⟨by decide, by decide, by decide, by decide, by decide,
   C3_verified_terminal storeUnverified fixtureUnverified 0 "J. Smith" 50
     exampleOps (by decide) (by decide) (by decide) (by decide) (by decide)⟩

end Tracker
